import Mathlib

/-!
Verification development for the MCP tool-extraction pipeline
(`scripts/extract_mcp_tools.py`).

The Python source is shallowly embedded below.  Pure helpers become Lean
functions; the fallible steps (shell-word splitting, the MCP stdio session,
the catalog HTTP calls) are embedded with `Except` and explicit oracles, so
that `try`/`except` blocks of the source appear as `match` on an `Except`
value.  Machine-level effects (printing, process spawning, HTTP transport)
are outside the embedded semantics: the session and the publisher are
parameters supplying the outcome that the corresponding I/O would have
produced.
-/

namespace MCPExtract

/-! ## Generic string machinery (models of the Python primitives used) -/

/-- Model of list prefix testing, used to locate pattern occurrences. -/
def isPre : List Char → List Char → Bool
  | [], _ => true
  | _ :: _, [] => false
  | p :: ps, c :: cs => p == c && isPre ps cs

/-- Fuel-driven model of Python `str.replace` on character lists: scan left to
right, replace non-overlapping occurrences of `pat` by `rep`.  The fuel is an
upper bound on the number of scanning steps; each step consumes at least one
character, so `s.length` fuel always suffices. -/
def replFuel (pat rep : List Char) : Nat → List Char → List Char
  | 0, s => s
  | _ + 1, [] => []
  | fuel + 1, c :: cs =>
    if isPre pat (c :: cs) then rep ++ replFuel pat rep fuel (List.drop pat.length (c :: cs))
    else c :: replFuel pat rep fuel cs

/-- Model of Python `str.replace(pat, rep)` (all occurrences, leftmost,
non-overlapping).  Every call site in the embedded source passes a non-empty
pattern, so the `pat = ""` branch is never exercised. -/
def strReplace (s pat rep : String) : String :=
  if pat = "" then s
  else String.mk (replFuel pat.data rep.data s.data.length s.data)

/-! ## Command Resolver: `replace_secret_placeholders` (source lines 143-179) -/

/-- Character class `[A-Z_]` of the placeholder-name regexes. -/
def secretChar (c : Char) : Bool := ('A' ≤ c && c ≤ 'Z') || c == '_'

/-- Maximal prefix of `[A-Z_]` characters together with the remainder,
modelling the greedy `[A-Z_]+` of the regexes. -/
def takeRun : List Char → List Char × List Char
  | [] => ([], [])
  | c :: cs =>
    if secretChar c then
      let p := takeRun cs
      (c :: p.1, p.2)
    else ([], c :: cs)

/-- Model of `re.findall(r'YOUR__([A-Z_]+)', s)`: leftmost non-overlapping
scan; on a failed match the scan advances one character, on a successful
match it resumes after the matched text. -/
def scan1 : Nat → List Char → List String
  | 0, _ => []
  | _ + 1, [] => []
  | fuel + 1, c :: cs =>
    if isPre "YOUR__".data (c :: cs) then
      let p := takeRun (List.drop 6 (c :: cs))
      if p.1 = [] then scan1 fuel cs
      else String.mk p.1 :: scan1 fuel p.2
    else scan1 fuel cs

/-- Model of `re.findall(r'<YOUR_([A-Z_]+)>', s)`.  The greedy character run
must be non-empty and immediately followed by `>`; backtracking inside the
run cannot succeed because a shorter run would end on a `[A-Z_]` character,
never on `>`. -/
def scan2 : Nat → List Char → List String
  | 0, _ => []
  | _ + 1, [] => []
  | fuel + 1, c :: cs =>
    if isPre "<YOUR_".data (c :: cs) then
      let p := takeRun (List.drop 6 (c :: cs))
      if p.1 = [] then scan2 fuel cs
      else
        match p.2 with
        | '>' :: rest2 => String.mk p.1 :: scan2 fuel rest2
        | _ => scan2 fuel cs
    else scan2 fuel cs

/-- First-occurrence deduplication, modelling `list(set(m1 + m2))`.  CPython
leaves the iteration order of the set unspecified (hash-dependent); the spec
likewise leaves the cross-name substitution order unspecified, so this model
fixes the first-occurrence order as its canonical choice. -/
def dedupAux : List String → List String → List String
  | [], _ => []
  | x :: xs, seen => if x ∈ seen then dedupAux xs seen else x :: dedupAux xs (x :: seen)

/-- The distinct placeholder names discovered in a string (source lines
156-164): pattern-1 matches, then pattern-2 matches, deduplicated. -/
def discoverNames (s : String) : List String :=
  dedupAux (scan1 s.data.length s.data ++ scan2 s.data.length s.data) []

/-- One iteration of the substitution loop (source lines 169-177).  The
environment lookup is `os.getenv`; the guard `if secret_value:` is Python
truthiness, so `None` and the empty string both skip the substitution. -/
def substStep (env : String → Option String) (acc : String) (n : String) : String :=
  match env n with
  | some v =>
    if v = "" then acc
    else strReplace (strReplace acc ("YOUR__" ++ n) v) ("<YOUR_" ++ n ++ ">") v
  | none => acc

/-- `replace_secret_placeholders` (source lines 143-179), with the ambient
environment passed explicitly. -/
def replace_secret_placeholders (cmd : String) (env : String → Option String) : String :=
  (discoverNames cmd).foldl (substStep env) cmd

/-! ## Command Resolver: `parse_command` (source lines 128-141)

`parse_command` delegates the splitting to `shlex.split` (POSIX mode,
comments disabled, whitespace split).  The lexer below is a direct model of
that state machine: whitespace separates tokens; single quotes quote
literally; double quotes quote with backslash escaping only `"` and `\`;
outside quotes a backslash makes the next character literal; an unclosed
quote or a trailing backslash is an error; a quoted empty token is kept. -/

/-- Lexer states of the `shlex` posix state machine: between tokens, inside a
word, inside single or double quotes, or after a backslash seen in a word or
inside double quotes. -/
inductive SState where
  | ws | word | sq | dq | escW | escD
deriving DecidableEq

/-- Whitespace set of `shlex` (`' \t\r\n'`). -/
def shWs (c : Char) : Bool := c == ' ' || c == '\t' || c == '\r' || c == '\n'

/-- The `shlex` posix read loop: remaining input, lexer state, current token
characters, and the per-token `quoted` flag (a quoted empty token is still
emitted). -/
def lexAux : List Char → SState → List Char → Bool → Except String (List String)
  | [], st, tok, quoted =>
    match st with
    | .sq | .dq => .error "No closing quotation"
    | .escW | .escD => .error "No escaped character"
    | .ws | .word => .ok (if tok = [] ∧ quoted = false then [] else [String.mk tok])
  | c :: cs, .ws, tok, quoted =>
    if shWs c then lexAux cs .ws tok quoted
    else if c = '\\' then lexAux cs .escW tok quoted
    else if c = '\'' then lexAux cs .sq tok quoted
    else if c = '"' then lexAux cs .dq tok quoted
    else lexAux cs .word (tok ++ [c]) quoted
  | c :: cs, .word, tok, quoted =>
    if shWs c then
      match lexAux cs .ws [] false with
      | .error e => .error e
      | .ok ts => .ok (String.mk tok :: ts)
    else if c = '\'' then lexAux cs .sq tok quoted
    else if c = '"' then lexAux cs .dq tok quoted
    else if c = '\\' then lexAux cs .escW tok quoted
    else lexAux cs .word (tok ++ [c]) quoted
  | c :: cs, .sq, tok, _ =>
    if c = '\'' then lexAux cs .word tok true
    else lexAux cs .sq (tok ++ [c]) true
  | c :: cs, .dq, tok, _ =>
    if c = '"' then lexAux cs .word tok true
    else if c = '\\' then lexAux cs .escD tok true
    else lexAux cs .dq (tok ++ [c]) true
  | c :: cs, .escW, tok, quoted => lexAux cs .word (tok ++ [c]) quoted
  | c :: cs, .escD, tok, _ =>
    if c = '"' ∨ c = '\\' then lexAux cs .dq (tok ++ [c]) true
    else lexAux cs .dq (tok ++ ['\\', c]) true

/-- Model of `shlex.split` as called by `parse_command` (posix, no
comments, whitespace split). -/
def shlexSplit (s : String) : Except String (List String) :=
  lexAux s.data .ws [] false

/-- `parse_command` (source lines 128-141): split, fail on an empty token
list with `ValueError("Empty command string")`, otherwise head and tail. -/
def parse_command (s : String) : Except String (String × List String) :=
  match shlexSplit s with
  | .error e => .error e
  | .ok [] => .error "Empty command string"
  | .ok (c :: rest) => .ok (c, rest)

/-! ## Data model -/

/-- Structured documents (JSON schemas) are opaque to this pipeline: the code
only copies `inputSchema` through or defaults it to the empty document `{}`,
never inspecting it.  Modelled as an opaque value type with a distinguished
empty document. -/
inductive SchemaDoc where
  | emptyDoc
  | doc (payload : String)
deriving DecidableEq

/-- A raw tool descriptor as returned by `session.list_tools()`:
`tool.name`, optional `tool.description`, and `tool.inputSchema` when the
attribute is present. -/
structure ToolDescriptor where
  name : String
  description : Option String
  inputSchema : Option SchemaDoc
deriving DecidableEq

/-- A catalog-ready tool record, the dict built at source lines 222-230; the
`relations.mcpServer` field is attached later by `create_tool_entity`
(source line 80), so it starts out absent. -/
structure ToolRecord where
  identifier : String
  title : String
  name : String
  description : String
  parameters : SchemaDoc
  serverRelation : Option String
deriving DecidableEq

/-- Model of Python `str.lower` (accurate on ASCII, which is all the
pipeline's identifiers use). -/
def pyLower (s : String) : String := String.mk (s.data.map Char.toLower)

/-- The identifier slug of source line 220:
`tool.name.lower().replace(' ', '_').replace('-', '_')`. -/
def slugOf (name : String) : String :=
  strReplace (strReplace (pyLower name) " " "_") "-" "_"

/-- The record built for one descriptor in the extraction loop (source lines
219-230): slug identifier, original name as title, description defaulted to
the empty string (`tool.description or ""`), parameters defaulted to the
empty document when `inputSchema` is absent. -/
def toolDataOf (d : ToolDescriptor) : ToolRecord :=
  { identifier := slugOf d.name
    title := d.name
    name := d.name
    description := d.description.getD ""
    parameters := d.inputSchema.getD SchemaDoc.emptyDoc
    serverRelation := none }

/-- The spec's `normalize(descriptor, serverIdentifier)`: the extraction-loop
record with the server relation attached. -/
def normalize (d : ToolDescriptor) (serverId : String) : ToolRecord :=
  { toolDataOf d with serverRelation := some serverId }

/-! ## Capability-listing session and extraction orchestrator -/

/-- Failures of the MCP stdio session (spawn/handshake/protocol); all of them
are caught by the `except Exception` at source lines 234-238. -/
inductive SessionErr where
  | connection (msg : String)
  | protocol (msg : String)
deriving DecidableEq

/-- `extract_tools_from_mcp` (source lines 181-238), with the environment and
the session outcome passed explicitly.  `sess` supplies, for the parsed
executable and arguments, what the `stdio_client`/`ClientSession` block
would have produced: a raised error or the listed tool descriptors.  A parse
failure or a session failure degrades to the empty list; on success each
descriptor is mapped through `toolDataOf` in protocol order. -/
def extract_tools_from_mcp (cmd : String) (env : String → Option String)
    (sess : String → List String → Except SessionErr (List ToolDescriptor)) :
    List ToolRecord :=
  match parse_command (replace_secret_placeholders cmd env) with
  | .error _ => []
  | .ok (c, args) =>
    match sess c args with
    | .error _ => []
    | .ok tools => tools.map toolDataOf

/-! ## Catalog publication and the batch loop of `main` (source lines 240-341) -/

/-- Failures of the catalog HTTP calls (`httpx.HTTPError` after
`raise_for_status`). -/
inductive PubErr where
  | httpError (msg : String)
deriving DecidableEq

/-- Oracles for the two catalog write endpoints: the tool upsert POST of
`create_tool_entity` and the server PATCH of `update_server_tools`. -/
structure Publisher where
  upsertHTTP : ToolRecord → Except PubErr Unit
  patchHTTP : Option String → List String → Except PubErr Unit

/-- `create_tool_entity` (source lines 74-99): attach the
`relations.mcpServer` link, POST, and re-raise any HTTP failure. -/
def create_tool_entity (pub : Publisher) (t : ToolRecord) (serverId : Option String) :
    Except PubErr Unit :=
  pub.upsertHTTP { t with serverRelation := serverId }

/-- `update_server_tools` (source lines 101-126): PATCH the server entity
with the tool-name list and swallow any HTTP failure (the `except` at source
lines 124-126 does not re-raise). -/
def update_server_tools (pub : Publisher) (serverId : Option String)
    (names : List String) : Except PubErr Unit :=
  match pub.patchHTTP serverId names with
  | .ok _ => .ok ()
  | .error _ => .ok ()

/-- The upsert loop at source lines 311-312: first failure propagates out to
the per-server `except` in `main`. -/
def upsertAllTools (pub : Publisher) (serverId : Option String) :
    List ToolRecord → Except PubErr Unit
  | [] => .ok ()
  | t :: ts =>
    match create_tool_entity pub t serverId with
    | .error e => .error e
    | .ok _ => upsertAllTools pub serverId ts

/-- A server entity fetched from the registry: `server.get("identifier")`,
`server.get("title")`, and `server.get("properties", {}).get("command")`. -/
structure ServerRec where
  identifier : Option String
  title : Option String
  command : Option String
deriving DecidableEq

/-- The running counters of `main` (source lines 276-279). -/
structure Counters where
  processed : Nat
  skipped : Nat
  failed : Nat
  toolsSynced : Nat
deriving DecidableEq

/-- The publication phase for one server (source lines 307-323): empty tool
list counts the server as skipped; otherwise upsert every tool, write the
tool-name summary, and count the server as processed, adding the tool count
to `toolsSynced`.  A propagated publish failure lands in the per-server
`except` (source lines 324-327), counting the server as failed. -/
def publishServer (pub : Publisher) (st : Counters) (serverId : Option String)
    (tools : List ToolRecord) : Counters :=
  if tools = [] then { st with skipped := st.skipped + 1 }
  else
    match upsertAllTools pub serverId tools with
    | .error _ => { st with failed := st.failed + 1 }
    | .ok _ =>
      match update_server_tools pub serverId (tools.map (fun t => t.title)) with
      | .error _ => { st with failed := st.failed + 1 }
      | .ok _ =>
        { st with processed := st.processed + 1
                  toolsSynced := st.toolsSynced + tools.length }

/-- One iteration of the batch loop (source lines 286-327): a missing or
falsy command counts the server as skipped without contacting it; otherwise
extract and publish. -/
def processServer (env : String → Option String)
    (sess : String → List String → Except SessionErr (List ToolDescriptor))
    (pub : Publisher) (st : Counters) (server : ServerRec) : Counters :=
  match server.command with
  | none => { st with skipped := st.skipped + 1 }
  | some cmd =>
    if cmd = "" then { st with skipped := st.skipped + 1 }
    else publishServer pub st server.identifier (extract_tools_from_mcp cmd env sess)

/-- The whole batch loop of `main` over the fetched server list, starting
from zeroed counters. -/
def syncAll (servers : List ServerRec) (env : String → Option String)
    (sess : String → List String → Except SessionErr (List ToolDescriptor))
    (pub : Publisher) : Counters :=
  servers.foldl (processServer env sess pub) ⟨0, 0, 0, 0⟩

/-- The exit signal computed from final counters (source lines 340-341):
`sys.exit(1)` when any server failed, otherwise the process ends with 0. -/
def exitOfCounters (st : Counters) : Nat :=
  if st.failed > 0 then 1 else 0

/-- The run's exit signal after the batch loop. -/
def mainExitCode (servers : List ServerRec) (env : String → Option String)
    (sess : String → List String → Except SessionErr (List ToolDescriptor))
    (pub : Publisher) : Nat :=
  exitOfCounters (syncAll servers env sess pub)

/-- Whether a server record carries a truthy launch command (the test at
source line 298). -/
def hasCmd (s : ServerRec) : Bool :=
  match s.command with
  | none => false
  | some c => c != ""

/-- How many records of a server list carry a truthy launch command. -/
def numWithCmd : List ServerRec → Nat
  | [] => 0
  | s :: ss => (if hasCmd s then 1 else 0) + numWithCmd ss

/-- How many records of a server list carry no truthy launch command. -/
def numWithoutCmd : List ServerRec → Nat
  | [] => 0
  | s :: ss => (if hasCmd s then 0 else 1) + numWithoutCmd ss

/-- The number of tools one server's extraction yields (zero without a
command). -/
def toolCount (env : String → Option String)
    (sess : String → List String → Except SessionErr (List ToolDescriptor))
    (s : ServerRec) : Nat :=
  match s.command with
  | none => 0
  | some cmd => (extract_tools_from_mcp cmd env sess).length

/-- Total tool count across a server list. -/
def totTools (env : String → Option String)
    (sess : String → List String → Except SessionErr (List ToolDescriptor)) :
    List ServerRec → Nat
  | [] => 0
  | s :: ss => toolCount env sess s + totTools env sess ss

/-! ## Concrete fixtures used by witnesses and counterexamples -/

/-- Environment whose value for `A` is itself a placeholder for `B`. -/
def envChain : String → Option String := fun n =>
  if n = "A" then some "YOUR__B" else if n = "B" then some "x" else none

/-- Environment of the spec's idempotence example: `API_KEY=abc123`. -/
def envApiKey : String → Option String := fun n =>
  if n = "API_KEY" then some "abc123" else none

/-- Environment where `NAME` is set to the empty string. -/
def envEmptyVal : String → Option String := fun n =>
  if n = "NAME" then some "" else none

/-- Environment with a single non-empty secret `K=xyz`. -/
def envK : String → Option String := fun n =>
  if n = "K" then some "xyz" else none

/-- Environment where `K` is set but empty while `L` is non-empty. -/
def envKEmpty : String → Option String := fun n =>
  if n = "K" then some "" else if n = "L" then some "vv" else none

/-- The empty environment. -/
def envNone : String → Option String := fun _ => none

/-- A session oracle that always fails to connect (e.g. nonexistent
executable). -/
def sessErr : String → List String → Except SessionErr (List ToolDescriptor) :=
  fun _ _ => .error (.connection "spawn failed")

/-- A session oracle that lists exactly one tool. -/
def sessOne : String → List String → Except SessionErr (List ToolDescriptor) :=
  fun _ _ => .ok [⟨"Get Weather", some "d", none⟩]

/-- A publisher whose HTTP calls all succeed. -/
def pubOk : Publisher := ⟨fun _ => Except.ok (), fun _ _ => Except.ok ()⟩

/-- A publisher whose summary PATCH always fails while upserts succeed. -/
def pubPatchFail : Publisher := ⟨fun _ => Except.ok (), fun _ _ => Except.error (.httpError "500")⟩

/-- Two servers: one with a working command, one with no command. -/
def serversW : List ServerRec :=
  [⟨some "s1", some "S1", some "run x"⟩, ⟨some "s2", some "S2", none⟩]

/-! ## Helper lemmas on folds and deduplication -/

theorem foldl_eq_of_id {α β : Type} (f : α → β → α) :
    ∀ (L : List β) (a : α), (∀ (x : α) (b : β), b ∈ L → f x b = x) → L.foldl f a = a := by
  intro L
  induction L with
  | nil => intro a _; rfl
  | cons b L ih =>
    intro a h
    rw [List.foldl_cons, h a b (List.mem_cons_self b L)]
    exact ih a (fun x c hc => h x c (List.mem_cons_of_mem b hc))

theorem foldl_congr_mem {α β : Type} (f g : α → β → α) :
    ∀ (L : List β) (a : α), (∀ (x : α) (b : β), b ∈ L → f x b = g x b) →
      L.foldl f a = L.foldl g a := by
  intro L
  induction L with
  | nil => intro a _; rfl
  | cons b L ih =>
    intro a h
    rw [List.foldl_cons, List.foldl_cons, h a b (List.mem_cons_self b L)]
    exact ih (g a b) (fun x c hc => h x c (List.mem_cons_of_mem b hc))

theorem foldl_eq_single {α β : Type} (f : α → β → α) (n : β) :
    ∀ (L : List β) (a : α), L.Nodup → n ∈ L →
      (∀ (x : α) (m : β), m ∈ L → m ≠ n → f x m = x) → L.foldl f a = f a n := by
  intro L
  induction L with
  | nil => intro a _ hn _; cases hn
  | cons b L ih =>
    intro a hnd hn h
    rw [List.foldl_cons]
    rcases List.mem_cons.mp hn with rfl | hn2
    · have hnot : n ∉ L := (List.nodup_cons.mp hnd).1
      exact foldl_eq_of_id f L (f a n)
        (fun x m hm => h x m (List.mem_cons_of_mem n hm) (fun e => hnot (e ▸ hm)))
    · have hb : b ≠ n := by
        intro e
        subst e
        exact (List.nodup_cons.mp hnd).1 hn2
      rw [h a b (List.mem_cons_self b L) hb]
      exact ih a (List.nodup_cons.mp hnd).2 hn2
        (fun x m hm hmn => h x m (List.mem_cons_of_mem b hm) hmn)

theorem dedupAux_spec : ∀ (l seen : List String),
    (dedupAux l seen).Nodup ∧ ∀ x ∈ dedupAux l seen, x ∉ seen := by
  intro l
  induction l with
  | nil =>
    intro seen
    exact ⟨List.nodup_nil, by intro x hx; cases hx⟩
  | cons b l ih =>
    intro seen
    by_cases hb : b ∈ seen
    · simpa [dedupAux, hb] using ih seen
    · have ihs := ih (b :: seen)
      simp only [dedupAux, if_neg hb]
      constructor
      · rw [List.nodup_cons]
        exact ⟨fun hmem => (ihs.2 b hmem) (List.mem_cons_self b seen), ihs.1⟩
      · intro x hx
        rcases List.mem_cons.mp hx with rfl | hx2
        · exact hb
        · intro hxs
          exact (ihs.2 x hx2) (List.mem_cons_of_mem b hxs)

theorem discoverNames_nodup (s : String) : (discoverNames s).Nodup :=
  (dedupAux_spec _ []).1

/-! ## Claim C1: idempotence of `replace_secret_placeholders` -/

/-- C1 counterexample: the claim "applying `resolveSecretPlaceholders` a
second time to its own result yields the identical string, for every
environment" is false.  With `A=YOUR__B` and `B=x`, the first application of
the function to `"YOUR__A"` yields `"YOUR__B"`, and the second application
substitutes again, yielding `"x"`. -/
theorem resolve_not_idempotent_counterexample :
    replace_secret_placeholders (replace_secret_placeholders "YOUR__A" envChain) envChain ≠
      replace_secret_placeholders "YOUR__A" envChain := by decide

/-- C1 (amended): `replace_secret_placeholders` is idempotent on any output
in which no placeholder remains: if the discovered-name scan of the first
result is empty — as in the spec's own example, where the substituted value
removes the placeholder — re-applying yields the identical string. -/
theorem resolve_idempotent_of_no_remaining_placeholder :
    ∀ (s : String) (env : String → Option String),
      discoverNames (replace_secret_placeholders s env) = [] →
      replace_secret_placeholders (replace_secret_placeholders s env) env =
        replace_secret_placeholders s env := by
  intro s env h
  have h2 : replace_secret_placeholders (replace_secret_placeholders s env) env =
      (discoverNames (replace_secret_placeholders s env)).foldl (substStep env)
        (replace_secret_placeholders s env) := rfl
  rw [h2, h]
  rfl

/-- C1 witness: the spec's example, `API_KEY=abc123` and
`"srv --key YOUR__API_KEY"`, resolves to `"srv --key abc123"` and is a fixed
point of a second application. -/
theorem resolve_idempotent_witness :
    replace_secret_placeholders "srv --key YOUR__API_KEY" envApiKey = "srv --key abc123" ∧
    replace_secret_placeholders
        (replace_secret_placeholders "srv --key YOUR__API_KEY" envApiKey) envApiKey =
      replace_secret_placeholders "srv --key YOUR__API_KEY" envApiKey :=
  ⟨by decide,
   resolve_idempotent_of_no_remaining_placeholder "srv --key YOUR__API_KEY" envApiKey (by decide)⟩

/-! ## Claim C4: substitution behavior per discovered name -/

/-- C4 counterexample: the claim "if the environment variable with exactly
that name is present, every occurrence of both spellings is replaced with the
variable's value" is false when the value is the empty string: `NAME` is
present in the environment, yet the placeholder is left in place (the claimed
replacement would have erased it, producing `""`). -/
theorem resolve_present_empty_counterexample :
    envEmptyVal "NAME" = some "" ∧
    replace_secret_placeholders "YOUR__NAME" envEmptyVal = "YOUR__NAME" :=
  ⟨rfl, by decide⟩

/-- C4 (amended): (1) if every discovered name's environment variable is
absent or empty, the string is returned unchanged; (2) if a discovered
name's variable is present with a non-empty value, and every other
discovered name's variable is absent or empty (substitutions for other
names can rewrite text that overlaps this name's placeholders, so the claim
must exclude them), every occurrence of both placeholder spellings for that
name is replaced with the value. -/
theorem resolve_substitution_behavior :
    (∀ (s : String) (env : String → Option String),
      (∀ n ∈ discoverNames s, (env n).getD "" = "") →
      replace_secret_placeholders s env = s) ∧
    (∀ (s : String) (env : String → Option String) (n v : String),
      n ∈ discoverNames s → env n = some v → v ≠ "" →
      (∀ m ∈ discoverNames s, m ≠ n → (env m).getD "" = "") →
      replace_secret_placeholders s env =
        strReplace (strReplace s ("YOUR__" ++ n) v) ("<YOUR_" ++ n ++ ">") v) := by
  constructor
  · intro s env h
    apply foldl_eq_of_id
    intro x b hb
    have hb2 := h b hb
    unfold substStep
    cases he : env b with
    | none => rfl
    | some v =>
      rw [he] at hb2
      simp only [Option.getD] at hb2
      simp [hb2]
  · intro s env n v hn he hv hrest
    have hstep : substStep env s n =
        strReplace (strReplace s ("YOUR__" ++ n) v) ("<YOUR_" ++ n ++ ">") v := by
      unfold substStep
      rw [he]
      simp [hv]
    rw [← hstep]
    apply foldl_eq_single (substStep env) n (discoverNames s) s (discoverNames_nodup s) hn
    intro x m hm hmn
    have hm2 := hrest m hm hmn
    unfold substStep
    cases hem : env m with
    | none => rfl
    | some w =>
      rw [hem] at hm2
      simp only [Option.getD] at hm2
      simp [hm2]

/-- C4 witness: with no resolvable variable the string is unchanged; with
`K=xyz`, all three occurrences of the two spellings of `K` are replaced. -/
theorem resolve_substitution_behavior_witness :
    replace_secret_placeholders "YOUR__Q" envNone = "YOUR__Q" ∧
    replace_secret_placeholders "a YOUR__K b YOUR__K <YOUR_K>" envK = "a xyz b xyz xyz" := by
  constructor
  · exact resolve_substitution_behavior.1 "YOUR__Q" envNone (by decide)
  · exact (resolve_substitution_behavior.2 "a YOUR__K b YOUR__K <YOUR_K>" envK "K" "xyz"
      (by decide) rfl (by decide) (by decide)).trans (by decide)

/-! ## Claim C9: present-but-empty behaves exactly like unset -/

/-- C9: a variable set to the empty string is treated exactly like an unset
variable — the run of `replace_secret_placeholders` is unchanged if the
binding is deleted from the environment — and in particular a string whose
only discovered name has an empty-string variable is returned unchanged. -/
theorem empty_env_value_like_unset :
    (∀ (s : String) (env : String → Option String) (n : String),
      env n = some "" →
      replace_secret_placeholders s env =
        replace_secret_placeholders s (fun m => if m = n then none else env m)) ∧
    (∀ (s : String) (env : String → Option String) (n : String),
      discoverNames s = [n] → env n = some "" →
      replace_secret_placeholders s env = s) := by
  constructor
  · intro s env n h
    unfold replace_secret_placeholders
    apply foldl_congr_mem
    intro x m _
    unfold substStep
    by_cases hm : m = n
    · subst hm
      rw [h]
      simp
    · simp [hm]
  · intro s env n hd h
    unfold replace_secret_placeholders
    rw [hd, List.foldl_cons, List.foldl_nil]
    unfold substStep
    rw [h]
    simp

/-- C9 witness: with `K` set to the empty string, the resolver's output on a
string mentioning `K` and `L` equals the output with `K` unset, and a string
whose only placeholder is `K` passes through unchanged. -/
theorem empty_env_value_like_unset_witness :
    replace_secret_placeholders "YOUR__K <YOUR_L>" envKEmpty =
      replace_secret_placeholders "YOUR__K <YOUR_L>"
        (fun m => if m = "K" then none else envKEmpty m) ∧
    replace_secret_placeholders "YOUR__K x" envKEmpty = "YOUR__K x" :=
  ⟨empty_env_value_like_unset.1 "YOUR__K <YOUR_L>" envKEmpty "K" (by decide),
   empty_env_value_like_unset.2 "YOUR__K x" envKEmpty "K" (by decide) (by decide)⟩

/-! ## Claim C5: `parse_command` shell-word splitting -/

/-- C5: `parse_command` splits by shell-word rules honoring quoting (the
`shlex` model), preserving embedded-space arguments verbatim; it fails
exactly when splitting yields zero tokens, and otherwise returns the first
token as executable and the rest as arguments in order.  Being a Lean
function, it is pure: identical inputs give identical results. -/
theorem parse_command_shell_splitting :
    parse_command "run \"hello world\"" = .ok ("run", ["hello world"]) ∧
    (∀ s : String, shlexSplit s = .ok [] → parse_command s = .error "Empty command string") ∧
    (∀ (s c : String) (args : List String), shlexSplit s = .ok (c :: args) →
      parse_command s = .ok (c, args)) := by
  refine ⟨rfl, ?_, ?_⟩
  · intro s h
    simp [parse_command, h]
  · intro s c args h
    simp [parse_command, h]

/-- C5 witness: the empty string yields zero tokens hence the failure, and a
two-token command string splits into executable and argument. -/
theorem parse_command_shell_splitting_witness :
    parse_command "" = .error "Empty command string" ∧
    parse_command "run x" = .ok ("run", ["x"]) :=
  ⟨parse_command_shell_splitting.2.1 "" rfl,
   parse_command_shell_splitting.2.2 "run x" "run" ["x"] rfl⟩

/-! ## Claim C6: totality and shape of `normalize` -/

theorem replFuel_single (p r : Char) :
    ∀ (fuel : Nat) (s : List Char), s.length ≤ fuel →
      replFuel [p] [r] fuel s = s.map (fun c => if c = p then r else c) := by
  intro fuel
  induction fuel with
  | zero =>
    intro s hs
    rw [Nat.le_zero, List.length_eq_zero] at hs
    subst hs
    rfl
  | succ fuel ih =>
    intro s hs
    cases s with
    | nil => rfl
    | cons c cs =>
      have hlen : cs.length ≤ fuel := by
        simpa using Nat.succ_le_succ_iff.mp (by simpa using hs)
      by_cases hc : c = p
      · subst hc
        simp [replFuel, isPre, ih cs hlen]
      · have hc2 : ¬p = c := fun e => hc e.symm
        simp [replFuel, isPre, hc, hc2, ih cs hlen]

theorem strReplace_single_char (p r : Char) (l : List Char) :
    strReplace (String.mk l) (String.mk [p]) (String.mk [r]) =
      String.mk (l.map (fun c => if c = p then r else c)) := by
  unfold strReplace
  rw [if_neg (by intro h; simpa using congrArg String.data h)]
  show String.mk (replFuel [p] [r] l.length l) = _
  rw [replFuel_single p r l.length l (Nat.le_refl _)]

theorem slugOf_eq_map (nm : String) :
    slugOf nm = String.mk (nm.data.map (fun c =>
      if c.toLower = ' ' ∨ c.toLower = '-' then '_' else c.toLower)) := by
  unfold slugOf pyLower
  have hsp : (" " : String) = String.mk [' '] := rfl
  have hus : ("_" : String) = String.mk ['_'] := rfl
  have hdash : ("-" : String) = String.mk ['-'] := rfl
  rw [hsp, hus, hdash, strReplace_single_char, strReplace_single_char]
  rw [List.map_map, List.map_map]
  have hfun : (((fun c => if c = '-' then '_' else c) ∘ fun c => if c = ' ' then '_' else c) ∘
        Char.toLower) =
      (fun c : Char => if c.toLower = ' ' ∨ c.toLower = '-' then '_' else c.toLower) := by
    funext c
    simp only [Function.comp_apply]
    by_cases h1 : c.toLower = ' '
    · simp [h1]
    · by_cases h2 : c.toLower = '-'
      · simp [h1, h2]
      · simp [h1, h2]
  rw [hfun]

/-- C6: `normalize` is total and pure (a Lean function on all descriptors):
the record's title is the original name, its server relation is the given
server identifier, the description defaults to the empty string exactly when
absent, the parameters default to the empty document exactly when
`inputSchema` is absent, and the identifier is the name lowercased with
every space and every hyphen replaced by underscore — e.g. `"Get Weather"`
becomes `"get_weather"` and `"list-files"` becomes `"list_files"`. -/
theorem normalize_total_fields :
    ∀ (nm : String) (dsc : Option String) (sch : Option SchemaDoc) (sid : String),
      (normalize ⟨nm, dsc, sch⟩ sid).title = nm ∧
      (normalize ⟨nm, dsc, sch⟩ sid).serverRelation = some sid ∧
      (normalize ⟨nm, none, sch⟩ sid).description = "" ∧
      (∀ d : String, (normalize ⟨nm, some d, sch⟩ sid).description = d) ∧
      (normalize ⟨nm, dsc, none⟩ sid).parameters = SchemaDoc.emptyDoc ∧
      (∀ j : SchemaDoc, (normalize ⟨nm, dsc, some j⟩ sid).parameters = j) ∧
      (normalize ⟨nm, dsc, sch⟩ sid).identifier =
        String.mk (nm.data.map (fun c =>
          if c.toLower = ' ' ∨ c.toLower = '-' then '_' else c.toLower)) ∧
      (normalize ⟨"Get Weather", none, none⟩ sid).identifier = "get_weather" ∧
      (normalize ⟨"list-files", none, none⟩ sid).identifier = "list_files" := by
  intro nm dsc sch sid
  refine ⟨rfl, rfl, rfl, fun d => rfl, rfl, fun j => rfl, ?_,
    (by decide : slugOf "Get Weather" = "get_weather"),
    (by decide : slugOf "list-files" = "list_files")⟩
  exact slugOf_eq_map nm

/-! ## Claim C2: extraction never raises, degrading to the empty list -/

/-- C2: `extract_tools_from_mcp` is embedded as a total function into plain
lists — it has no error outcome — and every failure degrades to the empty
list: a command that fails shell parsing (after secret resolution) yields
`[]`, and a session failure of any kind (spawn failure for a nonexistent
executable, connection or protocol fault) also yields `[]`, for every
command string and environment. -/
theorem extract_tools_never_raises :
    ∀ (cmd : String) (env : String → Option String)
      (sess : String → List String → Except SessionErr (List ToolDescriptor)),
      (∀ e : String, parse_command (replace_secret_placeholders cmd env) = .error e →
        extract_tools_from_mcp cmd env sess = []) ∧
      (∀ (c : String) (args : List String) (er : SessionErr),
        parse_command (replace_secret_placeholders cmd env) = .ok (c, args) →
        sess c args = .error er →
        extract_tools_from_mcp cmd env sess = []) := by
  intro cmd env sess
  constructor
  · intro e h
    simp [extract_tools_from_mcp, h]
  · intro c args er h hs
    simp [extract_tools_from_mcp, h, hs]

/-- C2 witness: the unparseable empty command and a connection failure both
yield the empty list. -/
theorem extract_tools_never_raises_witness :
    extract_tools_from_mcp "" envNone sessErr = [] ∧
    extract_tools_from_mcp "run x" envNone sessErr = [] :=
  ⟨(extract_tools_never_raises "" envNone sessErr).1 "Empty command string" rfl,
   (extract_tools_never_raises "run x" envNone sessErr).2 "run" ["x"]
     (SessionErr.connection "spawn failed") rfl rfl⟩

/-! ## Helper lemmas on the batch loop -/

theorem update_server_tools_ok (pub : Publisher) (sid : Option String) (names : List String) :
    update_server_tools pub sid names = .ok () := by
  unfold update_server_tools
  cases pub.patchHTTP sid names <;> rfl

theorem upsertAllTools_ok (pub : Publisher) (sid : Option String)
    (hup : ∀ t : ToolRecord, pub.upsertHTTP t = .ok ()) :
    ∀ tools : List ToolRecord, upsertAllTools pub sid tools = .ok () := by
  intro tools
  induction tools with
  | nil => rfl
  | cons t ts ih => simp [upsertAllTools, create_tool_entity, hup, ih]

theorem publishServer_nonempty_ok (pub : Publisher) (st : Counters) (sid : Option String)
    (tools : List ToolRecord) (hne : tools ≠ [])
    (hup : upsertAllTools pub sid tools = .ok ()) :
    publishServer pub st sid tools =
      { st with processed := st.processed + 1
                toolsSynced := st.toolsSynced + tools.length } := by
  unfold publishServer
  rw [if_neg hne, hup]
  simp [update_server_tools_ok]

theorem processServer_no_command (env : String → Option String)
    (sess : String → List String → Except SessionErr (List ToolDescriptor))
    (pub : Publisher) (st : Counters) (s : ServerRec) (h : s.command = none) :
    processServer env sess pub st s = { st with skipped := st.skipped + 1 } := by
  simp [processServer, h]

theorem processServer_with_command (env : String → Option String)
    (sess : String → List String → Except SessionErr (List ToolDescriptor))
    (pub : Publisher) (st : Counters) (s : ServerRec) (c : String)
    (h : s.command = some c) (hc : c ≠ "") :
    processServer env sess pub st s =
      publishServer pub st s.identifier (extract_tools_from_mcp c env sess) := by
  simp [processServer, h, hc]

theorem publishServer_counter_sum (pub : Publisher) (st : Counters) (sid : Option String)
    (tools : List ToolRecord) :
    (publishServer pub st sid tools).processed + (publishServer pub st sid tools).skipped +
        (publishServer pub st sid tools).failed =
      st.processed + st.skipped + st.failed + 1 := by
  unfold publishServer
  split
  · simp
    omega
  · split
    · simp
      omega
    · split
      · simp
        omega
      · simp
        omega

theorem processServer_counter_sum (env : String → Option String)
    (sess : String → List String → Except SessionErr (List ToolDescriptor))
    (pub : Publisher) (st : Counters) (s : ServerRec) :
    (processServer env sess pub st s).processed + (processServer env sess pub st s).skipped +
        (processServer env sess pub st s).failed =
      st.processed + st.skipped + st.failed + 1 := by
  unfold processServer
  split
  · simp
    omega
  · split
    · simp
      omega
    · exact publishServer_counter_sum _ _ _ _

theorem numCmd_add : ∀ L : List ServerRec, numWithCmd L + numWithoutCmd L = L.length := by
  intro L
  induction L with
  | nil => rfl
  | cons s L ih =>
    simp only [numWithCmd, numWithoutCmd, List.length_cons]
    by_cases h : hasCmd s <;> simp [h] <;> omega

/-! ## Claim C10: every server increments exactly one counter -/

/-- C10: after the batch loop, `processed + skipped + failed` equals the
number of server records fetched, for every environment, session outcome,
and publisher — each record increments exactly one of the three counters. -/
theorem counters_partition_total :
    ∀ (servers : List ServerRec) (env : String → Option String)
      (sess : String → List String → Except SessionErr (List ToolDescriptor))
      (pub : Publisher),
      (syncAll servers env sess pub).processed + (syncAll servers env sess pub).skipped +
          (syncAll servers env sess pub).failed =
        servers.length := by
  intro servers env sess pub
  have aux : ∀ (L : List ServerRec) (st : Counters),
      (L.foldl (processServer env sess pub) st).processed +
          (L.foldl (processServer env sess pub) st).skipped +
          (L.foldl (processServer env sess pub) st).failed =
        st.processed + st.skipped + st.failed + L.length := by
    intro L
    induction L with
    | nil => intro st; simp
    | cons s L ih =>
      intro st
      rw [List.foldl_cons, ih (processServer env sess pub st s)]
      have h := processServer_counter_sum env sess pub st s
      simp only [List.length_cons]
      omega
  simpa [syncAll] using aux servers ⟨0, 0, 0, 0⟩

/-! ## Claim C3: counter values on a clean partitioned batch -/

/-- C3: over a batch where every record either has a truthy command whose
extraction yields at least one tool, or has no command, and every tool
upsert succeeds: `processed` is the number K of command-bearing records,
`skipped` is N - K, `failed` is zero, and `toolsSynced` is the total tool
count across the command-bearing records. -/
theorem syncAll_counts_partition :
    ∀ (servers : List ServerRec) (env : String → Option String)
      (sess : String → List String → Except SessionErr (List ToolDescriptor))
      (pub : Publisher),
      (∀ s ∈ servers, s.command = none ∨
        ∃ c, s.command = some c ∧ c ≠ "" ∧ extract_tools_from_mcp c env sess ≠ []) →
      (∀ t : ToolRecord, pub.upsertHTTP t = .ok ()) →
      (syncAll servers env sess pub).processed = numWithCmd servers ∧
      (syncAll servers env sess pub).skipped = servers.length - numWithCmd servers ∧
      (syncAll servers env sess pub).failed = 0 ∧
      (syncAll servers env sess pub).toolsSynced = totTools env sess servers := by
  intro servers env sess pub H Hup
  have aux : ∀ (L : List ServerRec) (st : Counters),
      (∀ s ∈ L, s.command = none ∨
        ∃ c, s.command = some c ∧ c ≠ "" ∧ extract_tools_from_mcp c env sess ≠ []) →
      L.foldl (processServer env sess pub) st =
        ⟨st.processed + numWithCmd L, st.skipped + numWithoutCmd L, st.failed,
         st.toolsSynced + totTools env sess L⟩ := by
    intro L
    induction L with
    | nil =>
      intro st _
      simp [numWithCmd, numWithoutCmd, totTools]
    | cons s L ih =>
      intro st hall
      rw [List.foldl_cons]
      rcases hall s (List.mem_cons_self s L) with hnone | ⟨c, hc, hcne, hto⟩
      · rw [processServer_no_command env sess pub st s hnone,
          ih _ (fun x hx => hall x (List.mem_cons_of_mem s hx))]
        have hhc : hasCmd s = false := by simp [hasCmd, hnone]
        simp only [numWithCmd, numWithoutCmd, totTools, toolCount, hnone, hhc]
        refine Counters.mk.injEq .. ▸ ?_
        simp
        omega
      · rw [processServer_with_command env sess pub st s c hc hcne,
          publishServer_nonempty_ok pub st s.identifier _ hto
            (upsertAllTools_ok pub s.identifier Hup _),
          ih _ (fun x hx => hall x (List.mem_cons_of_mem s hx))]
        have hhc : hasCmd s = true := by simp [hasCmd, hc, hcne]
        simp only [numWithCmd, numWithoutCmd, totTools, toolCount, hc, hhc]
        refine Counters.mk.injEq .. ▸ ?_
        simp
        omega
  have h : syncAll servers env sess pub =
      ⟨numWithCmd servers, numWithoutCmd servers, 0, totTools env sess servers⟩ := by
    simpa [syncAll] using aux servers ⟨0, 0, 0, 0⟩ H
  rw [h]
  have hn := numCmd_add servers
  exact ⟨rfl, by simp; omega, rfl, rfl⟩

/-- C3 witness: of two servers — one with a one-tool command, one with no
command — exactly one is processed, one is skipped, none fail, and one tool
is synced. -/
theorem syncAll_counts_partition_witness :
    (syncAll serversW envNone sessOne pubOk).processed = 1 ∧
    (syncAll serversW envNone sessOne pubOk).skipped = 1 ∧
    (syncAll serversW envNone sessOne pubOk).failed = 0 ∧
    (syncAll serversW envNone sessOne pubOk).toolsSynced = 1 := by
  have h := syncAll_counts_partition serversW envNone sessOne pubOk
    (by
      intro s hs
      simp only [serversW] at hs
      rcases List.mem_cons.mp hs with rfl | hs2
      · exact Or.inr ⟨"run x", rfl, by decide, by decide⟩
      · rcases List.mem_cons.mp hs2 with rfl | hs3
        · exact Or.inl rfl
        · cases hs3)
    (fun t => rfl)
  exact ⟨h.1.trans (by decide), h.2.1.trans (by decide), h.2.2.1,
    h.2.2.2.trans (by decide)⟩

/-! ## Claim C7: summary-write failure is non-fatal -/

/-- C7: `update_server_tools` swallows every failure of the PATCH call — it
always returns success to its caller — and consequently the batch counters
(`processed`, `skipped`, `failed`, `toolsSynced`) do not depend on the PATCH
oracle at all: two publishers agreeing on tool upserts yield identical
`syncAll` outcomes whatever their summary writes do. -/
theorem update_server_tools_nonfatal :
    (∀ (pub : Publisher) (sid : Option String) (names : List String),
      update_server_tools pub sid names = .ok ()) ∧
    (∀ (servers : List ServerRec) (env : String → Option String)
      (sess : String → List String → Except SessionErr (List ToolDescriptor))
      (pub₁ pub₂ : Publisher),
      pub₁.upsertHTTP = pub₂.upsertHTTP →
      syncAll servers env sess pub₁ = syncAll servers env sess pub₂) := by
  constructor
  · exact update_server_tools_ok
  · intro servers env sess pub₁ pub₂ hup
    have hpub : ∀ (st : Counters) (sid : Option String) (tools : List ToolRecord),
        publishServer pub₁ st sid tools = publishServer pub₂ st sid tools := by
      intro st sid tools
      have hu : upsertAllTools pub₁ sid tools = upsertAllTools pub₂ sid tools := by
        induction tools with
        | nil => rfl
        | cons t ts ih => simp [upsertAllTools, create_tool_entity, hup, ih]
      unfold publishServer
      simp only [hu, update_server_tools_ok]
    have hps : ∀ (st : Counters) (s : ServerRec),
        processServer env sess pub₁ st s = processServer env sess pub₂ st s := by
      intro st s
      unfold processServer
      cases s.command with
      | none => rfl
      | some cmd =>
        by_cases hc : cmd = ""
        · simp [hc]
        · simp [hc, hpub]
    have hfold : ∀ (L : List ServerRec) (st : Counters),
        L.foldl (processServer env sess pub₁) st = L.foldl (processServer env sess pub₂) st := by
      intro L
      induction L with
      | nil => intro st; rfl
      | cons s L ih =>
        intro st
        rw [List.foldl_cons, List.foldl_cons, hps st s]
        exact ih _
    exact hfold servers ⟨0, 0, 0, 0⟩

/-- C7 witness: a publisher whose PATCH always fails gets a success from
`update_server_tools`, and produces exactly the outcome of an all-success
publisher on a concrete batch. -/
theorem update_server_tools_nonfatal_witness :
    update_server_tools pubPatchFail (some "s1") ["Get Weather"] = .ok () ∧
    syncAll serversW envNone sessOne pubOk = syncAll serversW envNone sessOne pubPatchFail :=
  ⟨update_server_tools_nonfatal.1 pubPatchFail (some "s1") ["Get Weather"],
   update_server_tools_nonfatal.2 serversW envNone sessOne pubOk pubPatchFail rfl⟩

/-! ## Claim C8: exit signal is `failed > 0`, independent of `skipped` -/

/-- C8: after all server records are visited, the run exits with failure
status 1 exactly when the `failed` counter is positive and with success
status 0 exactly when it is zero; the signal is a function of `failed`
alone, so `skipped` (and every other counter) has no influence on it. -/
theorem exit_signal_iff_failed :
    ∀ (servers : List ServerRec) (env : String → Option String)
      (sess : String → List String → Except SessionErr (List ToolDescriptor))
      (pub : Publisher),
      (mainExitCode servers env sess pub = 1 ↔ (syncAll servers env sess pub).failed > 0) ∧
      (mainExitCode servers env sess pub = 0 ↔ (syncAll servers env sess pub).failed = 0) ∧
      (∀ st₁ st₂ : Counters, st₁.failed = st₂.failed →
        exitOfCounters st₁ = exitOfCounters st₂) := by
  intro servers env sess pub
  refine ⟨?_, ?_, ?_⟩
  · unfold mainExitCode exitOfCounters
    by_cases h : (syncAll servers env sess pub).failed > 0 <;> simp [h]
  · unfold mainExitCode exitOfCounters
    by_cases h : (syncAll servers env sess pub).failed > 0 <;> simp [h] <;> omega
  · intro st₁ st₂ hab
    unfold exitOfCounters
    rw [hab]

/-- C8 witness: a failure-free batch exits 0, and two counter states that
differ only in `skipped` produce the same exit signal. -/
theorem exit_signal_iff_failed_witness :
    mainExitCode serversW envNone sessOne pubOk = 0 ∧
    exitOfCounters ⟨0, 5, 0, 0⟩ = exitOfCounters ⟨0, 0, 0, 0⟩ :=
  ⟨(exit_signal_iff_failed serversW envNone sessOne pubOk).2.1.mpr (by decide),
   (exit_signal_iff_failed serversW envNone sessOne pubOk).2.2 ⟨0, 5, 0, 0⟩ ⟨0, 0, 0, 0⟩ rfl⟩

end MCPExtract
